import Mathlib

/-!
Verification of the backgammon rules engine (`model/board.py`,
`model/move_validator.py`, `controller/ai_player.py`).

The board is the Python object `Board.points`: a list of 28 slots
(indices 0-27), each slot an ordered list of piece colors.  Point
indices are embedded as `ℤ` (Python ints); every raw list access in the
source is guarded by a range check, which the accessors below mirror.
-/

inductive Color where
  | White : Color
  | Black : Color
deriving DecidableEq, Repr

open Color

/-- The board: `Board.points` from `model/board.py`, a list of 28 slots. -/
abbrev Board := List (List Color)

/-- Raw slot read `self.points[i]` (all raw reads in the source occur under a
`0 <= i` guard and the list has 28 entries; out-of-range reads yield `[]`). -/
def slot (b : Board) (i : ℤ) : List Color :=
  if 0 ≤ i then b.getD i.toNat [] else []

/-- Raw slot write `self.points[i] = l` (out-of-range writes are no-ops,
never exercised by the guarded source code on a 28-slot board). -/
def setSlot (b : Board) (i : ℤ) (l : List Color) : Board :=
  if 0 ≤ i then b.set i.toNat l else b

/-- `Board.get_pieces_at`: guarded read returning a copy, `[]` out of range. -/
def getPiecesAt (b : Board) (i : ℤ) : List Color :=
  if 0 ≤ i ∧ i ≤ 27 then slot b i else []

/-- `Board.count_pieces_at`: number of pieces of `c` at point `i`. -/
def countPiecesAt (b : Board) (i : ℤ) (c : Color) : ℕ :=
  if 0 ≤ i ∧ i ≤ 27 then (slot b i).countP (fun p => p = c) else 0

/-- Partial sums of `count_pieces_at` over the points `0, 1, ..., n - 1`. -/
def countAllAux (b : Board) (c : Color) : ℕ → ℕ
  | 0 => 0
  | n + 1 => countAllAux b c n + countPiecesAt b (n : ℤ) c

/-- `Board.count_all_pieces`: total pieces of a color over slots 0-27
(`sum(count_pieces_at(point) for point in range(28))`). -/
def countAllPieces (b : Board) (c : Color) : ℕ :=
  countAllAux b c 28

/-- `Board.setup_initial_position`: the standard opening layout. -/
def initialBoard : Board :=
  [ [],                                    -- 0: Black bar
    [White, White],                        -- 1
    [], [], [], [],                        -- 2-5
    [Black, Black, Black, Black, Black],   -- 6
    [],                                    -- 7
    [Black, Black, Black],                 -- 8
    [], [], [],                            -- 9-11
    [White, White, White, White, White],   -- 12
    [Black, Black, Black, Black, Black],   -- 13
    [], [], [],                            -- 14-16
    [White, White, White],                 -- 17
    [],                                    -- 18
    [White, White, White, White, White],   -- 19
    [], [], [], [],                        -- 20-23
    [Black, Black],                        -- 24
    [],                                    -- 25: White bar
    [],                                    -- 26: Black tray
    []                                     -- 27: White tray
  ]

/-- `Board.has_pieces_on_bar`: White checks slot 25, Black checks slot 0. -/
def hasPiecesOnBar (b : Board) (c : Color) : Bool :=
  match c with
  | White => slot b 25 ≠ []
  | Black => slot b 0 ≠ []

/-- `Board.can_bear_off`: no pieces outside the home board and none on the bar. -/
def canBearOff (b : Board) (c : Color) : Bool :=
  match c with
  | White =>
      ((List.range' 1 18).all fun i => countPiecesAt b (i : ℤ) White = 0)
        && countPiecesAt b 25 White = 0
  | Black =>
      ((List.range' 7 18).all fun i => countPiecesAt b (i : ℤ) Black = 0)
        && countPiecesAt b 0 Black = 0

/-- `Board.move_piece`: returns the Python `bool` result together with the
mutated board.  Follows the source statement by statement: guard, bear-off
redirection (White→25 becomes 27, Black→0 becomes 26), blot-hit relocation
to the displaced piece's own bar slot, then pop/append of the moved piece. -/
def movePiece (b : Board) (fromPoint toPoint : ℤ) : Bool × Board :=
  if 0 ≤ fromPoint ∧ fromPoint ≤ 25 ∧ 0 ≤ toPoint ∧ toPoint ≤ 27
      ∧ slot b fromPoint ≠ [] then
    let color := (slot b fromPoint).getLastD White
    if (color = White ∧ toPoint = 25) ∨ (color = Black ∧ toPoint = 0) then
      let target : ℤ := if color = White then 27 else 26
      let b1 := setSlot b fromPoint (slot b fromPoint).dropLast
      let b2 := setSlot b1 target (slot b1 target ++ [color])
      (true, b2)
    else
      let b1 :=
        if (toPoint ≠ 0 ∧ toPoint ≠ 25 ∧ toPoint ≠ 26 ∧ toPoint ≠ 27)
            ∧ slot b toPoint ≠ [] ∧ (slot b toPoint).headD White ≠ color
            ∧ (slot b toPoint).length = 1 then
          let opponentColor := (slot b toPoint).headD White
          let bh := setSlot b toPoint (slot b toPoint).dropLast
          if opponentColor = White then
            setSlot bh 25 (slot bh 25 ++ [opponentColor])
          else
            setSlot bh 0 (slot bh 0 ++ [opponentColor])
        else b
      let b2 := setSlot b1 fromPoint (slot b1 fromPoint).dropLast
      let b3 := setSlot b2 toPoint (slot b2 toPoint ++ [color])
      (true, b3)
  else (false, b)

/-- `Board.check_winner`. -/
def checkWinner (b : Board) : Option Color :=
  if (slot b 27).length = 15 then some White
  else if (slot b 26).length = 15 then some Black
  else none

/-- Consecutive integers: `n` of them starting at `start`. -/
def rangeFrom (start : ℤ) : ℕ → List ℤ
  | 0 => []
  | n + 1 => start :: rangeFrom (start + 1) n

/-- Integer range `[lo, hi]` as a list (Python `range(lo, hi + 1)`). -/
def rangeZ (lo hi : ℤ) : List ℤ :=
  rangeFrom lo (hi + 1 - lo).toNat

/-- `MoveValidator.is_valid_entry`: bar entry onto `entryPoint`. -/
def isValidEntry (entryPoint : ℤ) (c : Color) (b : Board) : Bool :=
  if ¬ (1 ≤ entryPoint ∧ entryPoint ≤ 24) then false
  else
    let pieces := getPiecesAt b entryPoint
    if pieces = [] then true
    else if pieces.headD White ≠ c ∧ pieces.length ≥ 2 then false
    else true

/-- `MoveValidator.is_valid_move`: single-die landing legality (no path check). -/
def isValidMove (fromPoint toPoint : ℤ) (c : Color) (b : Board) : Bool :=
  if ¬ (1 ≤ toPoint ∧ toPoint ≤ 24) then false
  else
    let sourcePieces := getPiecesAt b fromPoint
    if sourcePieces = [] ∨ sourcePieces.headD White ≠ c then false
    else
      let destPieces := getPiecesAt b toPoint
      if destPieces = [] then true
      else if destPieces.headD White ≠ c then
        if destPieces.length ≥ 2 then false else true
      else true

/-- `MoveValidator.can_bear_off_with_die`: exact die always bears off; a
larger die bears off only if the scanned range of points is empty of the
color (the source scans `from+1..24` for White and `1..from-1` for Black). -/
def canBearOffWithDie (fromPoint dieValue : ℤ) (c : Color) (b : Board) : Bool :=
  if ¬ canBearOff b c then false
  else
    match c with
    | White =>
        if fromPoint < 19 then false
        else
          let exactValueNeeded := 25 - fromPoint
          if dieValue = exactValueNeeded then true
          else if dieValue > exactValueNeeded then
            (rangeZ (fromPoint + 1) 24).all fun p => countPiecesAt b p White = 0
          else false
    | Black =>
        if fromPoint > 6 then false
        else
          let exactValueNeeded := fromPoint
          if dieValue = exactValueNeeded then true
          else if dieValue > exactValueNeeded then
            (rangeZ 1 (fromPoint - 1)).all fun p => countPiecesAt b p Black = 0
          else false

/-- `MoveValidator.get_valid_moves_for_die`: bar entry has absolute priority;
otherwise scan occupied points in the direction of travel, emitting the
bear-off move and/or the regular move for each. -/
def getValidMovesForDie (c : Color) (dieValue : ℤ) (b : Board) : List (ℤ × ℤ) :=
  if hasPiecesOnBar b c then
    let barPoint : ℤ := if c = White then 25 else 0
    let entryPoint : ℤ := if c = White then dieValue else 25 - dieValue
    if isValidEntry entryPoint c b then [(barPoint, entryPoint)] else []
  else
    match c with
    | White =>
        (rangeZ 1 24).flatMap fun fromPoint =>
          if countPiecesAt b fromPoint White = 0 then []
          else
            (if canBearOff b White ∧ canBearOffWithDie fromPoint dieValue White b
              then [(fromPoint, (25 : ℤ))] else [])
            ++ (let toPoint := fromPoint + dieValue
                if (1 ≤ toPoint ∧ toPoint ≤ 24)
                    ∧ isValidMove fromPoint toPoint White b
                  then [(fromPoint, toPoint)] else [])
    | Black =>
        ((rangeZ 1 24).reverse).flatMap fun fromPoint =>
          if countPiecesAt b fromPoint Black = 0 then []
          else
            (if canBearOff b Black ∧ canBearOffWithDie fromPoint dieValue Black b
              then [(fromPoint, (0 : ℤ))] else [])
            ++ (let toPoint := fromPoint - dieValue
                if (1 ≤ toPoint ∧ toPoint ≤ 24)
                    ∧ isValidMove fromPoint toPoint Black b
                  then [(fromPoint, toPoint)] else [])

/-- `MoveValidator.get_valid_moves`: union over the dice. -/
def getValidMoves (c : Color) (diceValues : List ℤ) (b : Board) : List (ℤ × ℤ) :=
  diceValues.flatMap fun die => getValidMovesForDie c die b

/-- Apply a move sequence to a clone of the board (the loop at the top of
`_generate_move_sequences` replaying `current_sequence` on `temp_board`). -/
def applyMoves (b : Board) (moves : List (ℤ × ℤ)) : Board :=
  moves.foldl (fun bd m => (movePiece bd m.1 m.2).2) b

/-- `MoveValidator._generate_move_sequences`: recursive enumeration.  The
accumulator `sequences` grows by appending each completed non-empty
`currentSequence`; when a die has no legal move it is skipped; otherwise the
`for from_point, to_point in valid_moves` loop threads the accumulator
through one recursive call per legal move (a left fold). -/
def generateMoveSequences (c : Color) (b : Board) :
    List ℤ → List (List (ℤ × ℤ)) → List (ℤ × ℤ) → List (List (ℤ × ℤ))
  | [], sequences, currentSequence =>
      if currentSequence ≠ [] then sequences ++ [currentSequence] else sequences
  | die :: rest, sequences, currentSequence =>
      let tempBoard := applyMoves b currentSequence
      let validMoves := getValidMovesForDie c die tempBoard
      if validMoves = [] then
        generateMoveSequences c b rest sequences currentSequence
      else
        validMoves.foldl
          (fun seqs m => generateMoveSequences c b rest seqs
            (currentSequence ++ [m]))
          sequences

/-- `MoveValidator.get_all_possible_move_sequences`: seeds the accumulator
with `[[]]` (one empty sequence) and starts the recursion. -/
def getAllPossibleMoveSequences (c : Color) (diceValues : List ℤ) (b : Board) :
    List (List (ℤ × ℤ)) :=
  generateMoveSequences c b diceValues [[]] []

/-- A board for bear-off tests: White one piece on each of 19-24 and nine
borne off; Black all fifteen on point 6. -/
def bearOffBoard : Board :=
  [ [], [], [], [], [],
    [],
    [Black, Black, Black, Black, Black, Black, Black, Black, Black, Black,
      Black, Black, Black, Black, Black],   -- 6
    [], [], [], [], [], [], [], [], [], [], [], [],
    [White],                                -- 19
    [White], [White], [White], [White],     -- 20-23
    [White],                                -- 24
    [],
    [],
    [White, White, White, White, White, White, White, White, White] ]  -- 27

/-- White pieces on 19 and 20 only (rest borne off); the piece on 19 is the
rearmost. -/
def bearOffLowBoard : Board :=
  [ [], [], [], [],
    [Black, Black, Black, Black, Black, Black, Black, Black, Black, Black,
      Black, Black, Black, Black, Black],   -- 4
    [], [], [], [], [], [], [], [], [], [], [], [], [], [],
    [White],                                -- 19
    [White],                                -- 20
    [], [], [], [], [], [],
    [White, White, White, White, White, White, White, White, White, White,
      White, White, White] ]                -- 27

/-- White pieces on 20 and 24 only (rest borne off); the piece on 20 is the
rearmost. -/
def bearOffHighBoard : Board :=
  [ [], [], [], [],
    [Black, Black, Black, Black, Black, Black, Black, Black, Black, Black,
      Black, Black, Black, Black, Black],   -- 4
    [], [], [], [], [], [], [], [], [], [], [], [], [], [], [],
    [White],                                -- 20
    [], [], [],
    [White],                                -- 24
    [], [],
    [White, White, White, White, White, White, White, White, White, White,
      White, White, White] ]                -- 27

/-- A Black piece sitting on White's bar slot 25 and a single White blot on
point 2. -/
def blotBoard : Board :=
  [ [], [],
    [White],                                -- 2
    [], [], [], [], [], [], [], [], [], [], [], [], [], [], [], [], [], [],
    [], [], [], [],
    [Black],                                -- 25
    [], [] ]

/-- A White blot on 13 with a Black piece exactly six points behind it. -/
def hitRiskBoard : Board :=
  [ [], [], [], [], [], [], [], [], [], [], [], [], [],
    [White],                                -- 13
    [], [], [], [], [],
    [Black],                                -- 19
    [], [], [], [], [], [], [], [] ]

/-- A White blot on 3 with a Black piece on the bar (slot 0). -/
def hitRiskBarBoard : Board :=
  [ [Black], [], [],
    [White],                                -- 3
    [], [], [], [], [], [], [], [], [], [], [], [], [], [], [], [],
    [], [], [], [], [], [], [], [] ]

/-- Modelled from the spec: bearing off with a die strictly larger than the
exact distance is legal iff `can_bear_off` holds and no piece of the color
occupies a point strictly further from the edge than `from` (below `from`
for White, above `from` for Black). -/
def bearOffLargerDieSpec (fromPoint : ℤ) (c : Color) (b : Board) : Bool :=
  canBearOff b c &&
    match c with
    | White => (rangeZ 1 (fromPoint - 1)).all fun p => countPiecesAt b p White = 0
    | Black => (rangeZ (fromPoint + 1) 24).all fun p => countPiecesAt b p Black = 0

/-- Modelled from the spec: the hit-risk of a blot at `point` is the sum over
the six points at distance 1-6 behind it (in the opponent's direction of
attack) of `(7 - distance) / 6` for each point the opponent occupies, plus
1 when the opponent has a bar piece whose direct entry lands on `point`
(Black enters on 19-24, White on 1-6); capped at 1. -/
def hitRiskSpec (selfColor : Color) (b : Board) (point : ℤ)
    (opponentColor : Color) : ℚ :=
  let base := ((rangeZ 1 6).map fun d =>
    let p : ℤ := match selfColor with
      | White => point + d
      | Black => point - d
    if countPiecesAt b p opponentColor > 0
      then ((7 : ℚ) - (d : ℚ)) / 6 else 0).sum
  let entryBonus : ℚ :=
    match selfColor with
    | White =>
        if countPiecesAt b 0 opponentColor > 0 ∧ 19 ≤ point ∧ point ≤ 24
          then 1 else 0
    | Black =>
        if countPiecesAt b 25 opponentColor > 0 ∧ 1 ≤ point ∧ point ≤ 6
          then 1 else 0
  min (base + entryBonus) 1

/-- The per-difficulty strategy weight table of `AIPlayer` (Python floats
embedded as rationals). -/
structure Weights where
  bear_off : ℚ
  hit : ℚ
  home_board : ℚ
  block : ℚ
  blot_vuln : ℚ
  progress : ℚ
  bar : ℚ
  opponent_bar : ℚ
  randomness : ℚ
  endgame_bearing : ℚ
  prime : ℚ
  opponent_anchor : ℚ
deriving DecidableEq, Repr

/-- `AIPlayer._get_difficulty_weights("easy")`. -/
def easyWeights : Weights :=
  { bear_off := 12, hit := 5, home_board := 8, block := 3, blot_vuln := 1
    progress := 2, bar := 8, opponent_bar := 3, randomness := 3 / 10
    endgame_bearing := 15, prime := 2, opponent_anchor := 1 }

/-- `AIPlayer._get_difficulty_weights("hard")`. -/
def hardWeights : Weights :=
  { bear_off := 20, hit := 12, home_board := 14, block := 10, blot_vuln := 8
    progress := 6, bar := 15, opponent_bar := 9, randomness := 1 / 100
    endgame_bearing := 25, prime := 12, opponent_anchor := 8 }

/-- `AIPlayer._get_difficulty_weights("medium")` (the default). -/
def mediumWeights : Weights :=
  { bear_off := 16, hit := 8, home_board := 10, block := 6, blot_vuln := 4
    progress := 4, bar := 12, opponent_bar := 6, randomness := 1 / 20
    endgame_bearing := 20, prime := 7, opponent_anchor := 4 }

/-- The `components` dictionary built by `AIPlayer._evaluate_position`. -/
structure Components where
  pieces_borne_off : ℚ
  opponent_borne_off : ℚ
  pieces_on_bar : ℚ
  opponent_on_bar : ℚ
  all_in_home : ℚ
  bearing_position : ℚ
  forward_progress : ℚ
  blocks : ℚ
  blot_vulnerability : ℚ
  hitting_potential : ℚ
  home_board_presence : ℚ
  prime_formation : ℚ
  randomness : ℚ
deriving DecidableEq, Repr

/-- `AIPlayer._calculate_hit_risk(board, point, opponent_color)`: the AI's
own color decides the branch.  For a White AI the scan is
`range(point+1, min(point+6, 25))` (distances 1-5 only) and the bar bonus
fires when `point <= 6`; for a Black AI the scan is
`range(max(point-6, 0), point)` and the bar bonus fires when `point >= 19`.
The result is capped at 1. -/
def calculateHitRisk (selfColor : Color) (b : Board) (point : ℤ)
    (opponentColor : Color) : ℚ :=
  let risk : ℚ :=
    match selfColor with
    | White =>
        let scan := rangeZ (point + 1) (min (point + 6) 25 - 1)
        let base := (scan.map fun i =>
          if countPiecesAt b i opponentColor > 0
            then ((7 : ℚ) - ((i : ℚ) - (point : ℚ))) / 6 else 0).sum
        if countPiecesAt b 0 opponentColor > 0 ∧ point ≤ 6
          then base + 1 else base
    | Black =>
        let scan := rangeZ (max (point - 6) 0) (point - 1)
        let base := (scan.map fun i =>
          if countPiecesAt b i opponentColor > 0
            then ((7 : ℚ) - ((point : ℚ) - (i : ℚ))) / 6 else 0).sum
        if countPiecesAt b 25 opponentColor > 0 ∧ point ≥ 19
          then base + 1 else base
  min risk 1

/-- Mutable state of the per-point scanning loop in
`AIPlayer._evaluate_position` (section 4 of the method). -/
structure LoopState where
  progress_score : ℚ
  block_score : ℚ
  blot_score : ℚ
  hit_score : ℚ
  home_score : ℚ
  anchor_penalty : ℚ
  consecutive_points : ℕ
  max_consecutive : ℕ

/-- One iteration of the point-scanning loop of `_evaluate_position` for the
point `p` (`selfColor` is the AI, `w` its weights).  The opponent-anchor
term is subtracted from `score` directly in the source; it is accumulated in
`anchor_penalty` here and subtracted once at the end, which sums the same
rational values. -/
def evalLoopStep (selfColor : Color) (w : Weights) (b : Board)
    (st : LoopState) (p : ℤ) : LoopState :=
  let opponentColor := match selfColor with | White => Black | Black => White
  let count := countPiecesAt b p selfColor
  let st1 :=
    if count > 0 then
      let inHome : Bool :=
        match selfColor with
        | White => decide (p ≥ 19)
        | Black => decide (p ≤ 6)
      let distanceIn : ℚ :=
        match selfColor with | White => (p : ℚ) | Black => (25 : ℚ) - (p : ℚ)
      let st1 :=
        if inHome = true then
          { st with home_score :=
              st.home_score + (count : ℚ) * w.home_board / 15 }
        else
          { st with progress_score :=
              st.progress_score + (count : ℚ) * distanceIn * w.progress / 300 }
      let st2 :=
        if count = 1 then
          let risk := calculateHitRisk selfColor b p opponentColor
          { st1 with blot_score := st1.blot_score - risk * w.blot_vuln / 5 }
        else st1
      let st3 :=
        if count ≥ 2 then
          let consec := st2.consecutive_points + 1
          { st2 with
              block_score := st2.block_score + w.block / 24
              consecutive_points := consec
              max_consecutive := max st2.max_consecutive consec }
        else { st2 with consecutive_points := 0 }
      if countPiecesAt b p opponentColor = 1 then
        { st3 with hit_score := st3.hit_score + w.hit / 8 }
      else st3
    else { st with consecutive_points := 0 }
  let inOwnHomeRange : Bool :=
    match selfColor with
    | White => decide (19 ≤ p ∧ p ≤ 24)
    | Black => decide (1 ≤ p ∧ p ≤ 6)
  if inOwnHomeRange = true ∧ countPiecesAt b p opponentColor ≥ 2 then
    { st1 with anchor_penalty := st1.anchor_penalty + w.opponent_anchor / 6 }
  else st1

/-- `AIPlayer._evaluate_position`, with the `random.uniform(0, randomness)`
sample passed in explicitly as `r` (the caller guarantees
`0 ≤ r ≤ w.randomness`).  Returns the `(score, components)` pair. -/
def evaluatePosition (selfColor : Color) (w : Weights) (b : Board) (r : ℚ) :
    ℚ × Components :=
  let homeIndex : ℤ := match selfColor with | White => 27 | Black => 26
  let opponentHomeIndex : ℤ := match selfColor with | White => 26 | Black => 27
  let bornOffScore := ((slot b homeIndex).length : ℚ) * w.bear_off
  let oppBornOffScore := -((slot b opponentHomeIndex).length : ℚ) * w.bear_off
  let barIndex : ℤ := match selfColor with | White => 25 | Black => 0
  let opponentBarIndex : ℤ := match selfColor with | White => 0 | Black => 25
  let barScore := -((slot b barIndex).length : ℚ) * w.bar
  let oppBarScore := ((slot b opponentBarIndex).length : ℚ) * w.opponent_bar
  let canBear := canBearOff b selfColor
  let homeBonus : ℚ := if canBear then w.home_board else 0
  let bearingScore : ℚ :=
    if canBear then
      match selfColor with
      | White =>
          ((rangeZ 19 24).map fun p =>
            (countPiecesAt b p selfColor : ℚ) * ((p : ℚ) - 18)
              * w.endgame_bearing / 36).sum
      | Black =>
          ((rangeZ 1 6).map fun p =>
            (countPiecesAt b p selfColor : ℚ) * ((7 : ℚ) - (p : ℚ))
              * w.endgame_bearing / 36).sum
    else 0
  let scanOrder := match selfColor with
    | White => rangeZ 1 24
    | Black => (rangeZ 1 24).reverse
  let st := scanOrder.foldl (evalLoopStep selfColor w b)
    { progress_score := 0, block_score := 0, blot_score := 0, hit_score := 0
      home_score := 0, anchor_penalty := 0
      consecutive_points := 0, max_consecutive := 0 }
  let primeScore : ℚ :=
    if st.max_consecutive ≥ 6 then w.prime
    else if st.max_consecutive ≥ 4 then w.prime / 2
    else 0
  let score :=
    bornOffScore + oppBornOffScore + barScore + oppBarScore
      + homeBonus + bearingScore - st.anchor_penalty
      + st.progress_score + st.block_score + st.blot_score + st.hit_score
      + st.home_score + primeScore + r
  (score,
    { pieces_borne_off := bornOffScore / w.bear_off
      opponent_borne_off := oppBornOffScore / w.bear_off
      pieces_on_bar := barScore / w.bar
      opponent_on_bar := oppBarScore / w.opponent_bar
      all_in_home := if canBear then 1 else 0
      bearing_position := if canBear then bearingScore / w.endgame_bearing else 0
      forward_progress :=
        if w.progress > 0 then st.progress_score / w.progress else 0
      blocks := if w.block > 0 then st.block_score / w.block else 0
      blot_vulnerability :=
        if w.blot_vuln > 0 then st.blot_score / w.blot_vuln else 0
      hitting_potential := if w.hit > 0 then st.hit_score / w.hit else 0
      home_board_presence :=
        if w.home_board > 0 then st.home_score / w.home_board else 0
      prime_formation := if w.prime > 0 then primeScore / w.prime else 0
      randomness := if w.randomness > 0 then r / w.randomness else 0 })

/-- The opponent of a color (the source re-derives this by string compare). -/
def otherColor : Color → Color
  | White => Black
  | Black => White

/-- The one situation in which `move_piece` destroys a piece: a blot is hit
while the mover departs from the very bar slot the displaced piece is sent
to (the displaced piece is appended there and then immediately popped off by
the mover's departure). -/
def badBarHit (b : Board) (fromPoint toPoint : ℤ) : Prop :=
  (toPoint ≠ 0 ∧ toPoint ≠ 25 ∧ toPoint ≠ 26 ∧ toPoint ≠ 27)
  ∧ slot b toPoint ≠ []
  ∧ (slot b toPoint).headD White ≠ (slot b fromPoint).getLastD White
  ∧ (slot b toPoint).length = 1
  ∧ fromPoint = (if (slot b toPoint).headD White = White then (25 : ℤ) else 0)

instance (b : Board) (fromPoint toPoint : ℤ) :
    Decidable (badBarHit b fromPoint toPoint) :=
  inferInstanceAs (Decidable
    ((toPoint ≠ 0 ∧ toPoint ≠ 25 ∧ toPoint ≠ 26 ∧ toPoint ≠ 27)
      ∧ slot b toPoint ≠ []
      ∧ (slot b toPoint).headD White ≠ (slot b fromPoint).getLastD White
      ∧ (slot b toPoint).length = 1
      ∧ fromPoint = (if (slot b toPoint).headD White = White
          then (25 : ℤ) else 0)))

/-- `goodSeq b moves` holds when no move of the sequence, applied in order,
is a `badBarHit` at its application point. -/
def goodSeq : Board → List (ℤ × ℤ) → Bool
  | _, [] => true
  | b, (fr, toP) :: ms =>
      decide (¬ badBarHit b fr toP) && goodSeq (movePiece b fr toP).2 ms

/-- White's opening position with one piece moved from 19 to the bar
(slot 25). -/
def whiteBarBoard : Board :=
  [ [],
    [White, White],
    [], [], [], [],
    [Black, Black, Black, Black, Black],
    [],
    [Black, Black, Black],
    [], [], [],
    [White, White, White, White, White],
    [Black, Black, Black, Black, Black],
    [], [], [],
    [White, White, White],
    [],
    [White, White, White, White],
    [], [], [], [],
    [Black, Black],
    [White],
    [],
    [] ]

/-- Weights with the `randomness` weight forced to 0 (medium otherwise). -/
def zeroRandomWeights : Weights :=
  { mediumWeights with randomness := 0 }

theorem length_setSlot (b : Board) (i : ℤ) (l : List Color) :
    (setSlot b i l).length = b.length := by
  unfold setSlot
  split <;> simp

theorem movePiece_fail (b : Board) (fr toP : ℤ)
    (h : ¬(0 ≤ fr ∧ fr ≤ 25 ∧ 0 ≤ toP ∧ toP ≤ 27 ∧ slot b fr ≠ [])) :
    movePiece b fr toP = (false, b) := by
  simp only [movePiece]
  rw [if_neg h]

@[simp] theorem decide_white_eq_black : decide (White = Black) = false := rfl

@[simp] theorem decide_black_eq_white : decide (Black = White) = false := rfl

@[simp] theorem decide_white_eq_white : decide (White = White) = true := rfl

@[simp] theorem decide_black_eq_black : decide (Black = Black) = true := rfl

theorem otherColor_ne (c : Color) : otherColor c ≠ c := by cases c <;> decide

theorem slot_nonempty_lt_length {b : Board} {i : ℤ} (h : slot b i ≠ []) :
    0 ≤ i ∧ i.toNat < b.length := by
  unfold slot at h
  split at h
  case isTrue hi =>
    refine ⟨hi, ?_⟩
    by_contra hc
    push_neg at hc
    rw [List.getD_eq_getElem?_getD, List.getElem?_eq_none hc] at h
    simp at h
  case isFalse hi => simp at h

theorem slot_setSlot_self (b : Board) (i : ℤ) (l : List Color)
    (h0 : 0 ≤ i) (hlt : i.toNat < b.length) :
    slot (setSlot b i l) i = l := by
  unfold slot setSlot
  rw [if_pos h0, if_pos h0, List.getD_eq_getElem?_getD,
    List.getElem?_set_self (by simpa using hlt)]
  simp

theorem slot_setSlot_ne (b : Board) (i j : ℤ) (l : List Color) (h : i ≠ j) :
    slot (setSlot b i l) j = slot b j := by
  unfold slot setSlot
  by_cases h0 : 0 ≤ i
  · by_cases h1 : 0 ≤ j
    · rw [if_pos h0, if_pos h1, if_pos h1, List.getD_eq_getElem?_getD,
        List.getD_eq_getElem?_getD, List.getElem?_set_ne]
      omega
    · rw [if_pos h0, if_neg h1, if_neg h1]
  · rw [if_neg h0]

theorem countP_eq_dropLast_add {l : List Color} (f : Color → Bool) (d : Color)
    (h : l ≠ []) :
    l.countP f = l.dropLast.countP f + (if f (l.getLastD d) then 1 else 0) := by
  conv_lhs => rw [← List.dropLast_append_getLast h]
  rw [List.countP_append]
  simp [List.countP_cons, List.getLastD_eq_getLast?, List.getLast?_eq_getLast _ h]

/-- Updating slot `i` (a valid index) changes the color totals by swapping the
old contents of the slot for the new ones. -/
theorem countAllPieces_setSlot (b : Board) (i : ℤ) (l : List Color) (c : Color)
    (h0 : 0 ≤ i) (h27 : i ≤ 27) (hlt : i.toNat < b.length) :
    countAllPieces (setSlot b i l) c + (slot b i).countP (fun p => p = c)
      = countAllPieces b c + l.countP (fun p => p = c) := by
  have key : ∀ n : ℕ,
      countAllAux (setSlot b i l) c n + (slot b i).countP (fun p => p = c)
      = countAllAux b c n
        + (if i.toNat < n then l.countP (fun p => p = c)
            else (slot b i).countP (fun p => p = c)) := by
    intro n
    induction n with
    | zero => simp [countAllAux]
    | succ n ih =>
      simp only [countAllAux]
      by_cases hn : i.toNat = n
      · have hcast : (n : ℤ) = i := by omega
        have hset : countPiecesAt (setSlot b i l) (n : ℤ) c
            = l.countP (fun p => p = c) := by
          unfold countPiecesAt
          rw [if_pos (by constructor <;> omega), hcast,
            slot_setSlot_self b i l h0 hlt]
        have horig : countPiecesAt b (n : ℤ) c
            = (slot b i).countP (fun p => p = c) := by
          unfold countPiecesAt
          rw [if_pos (by constructor <;> omega), hcast]
        rw [if_neg (by omega)] at ih
        rw [if_pos (by omega), hset, horig]
        omega
      · have hij : i ≠ (n : ℤ) := by omega
        have hsame : countPiecesAt (setSlot b i l) (n : ℤ) c
            = countPiecesAt b (n : ℤ) c := by
          unfold countPiecesAt
          rw [slot_setSlot_ne b i (n : ℤ) l hij]
        rw [hsame]
        by_cases hlt2 : i.toNat < n
        · rw [if_pos hlt2] at ih
          rw [if_pos (by omega)]
          omega
        · rw [if_neg hlt2] at ih
          rw [if_neg (by omega)]
          omega
  have := key 28
  rw [if_pos (by omega)] at this
  exact this

theorem movePiece_bearoff (b : Board) (fr toP : ℤ)
    (hg : 0 ≤ fr ∧ fr ≤ 25 ∧ 0 ≤ toP ∧ toP ≤ 27 ∧ slot b fr ≠ [])
    (hs : ((slot b fr).getLastD White = White ∧ toP = 25)
        ∨ ((slot b fr).getLastD White = Black ∧ toP = 0)) :
    movePiece b fr toP = (true,
      setSlot (setSlot b fr (slot b fr).dropLast)
        (if (slot b fr).getLastD White = White then 27 else 26)
        (slot (setSlot b fr (slot b fr).dropLast)
          (if (slot b fr).getLastD White = White then 27 else 26)
          ++ [(slot b fr).getLastD White])) := by
  simp only [movePiece]
  rw [if_pos hg, if_pos hs]

theorem movePiece_nohit (b : Board) (fr toP : ℤ)
    (hg : 0 ≤ fr ∧ fr ≤ 25 ∧ 0 ≤ toP ∧ toP ≤ 27 ∧ slot b fr ≠ [])
    (hns : ¬(((slot b fr).getLastD White = White ∧ toP = 25)
        ∨ ((slot b fr).getLastD White = Black ∧ toP = 0)))
    (hnh : ¬((toP ≠ 0 ∧ toP ≠ 25 ∧ toP ≠ 26 ∧ toP ≠ 27)
        ∧ slot b toP ≠ []
        ∧ (slot b toP).headD White ≠ (slot b fr).getLastD White
        ∧ (slot b toP).length = 1)) :
    movePiece b fr toP = (true,
      setSlot (setSlot b fr (slot b fr).dropLast) toP
        (slot (setSlot b fr (slot b fr).dropLast) toP
          ++ [(slot b fr).getLastD White])) := by
  simp only [movePiece]
  rw [if_pos hg, if_neg hns, if_neg hnh]

theorem movePiece_hit (b : Board) (fr toP : ℤ)
    (hg : 0 ≤ fr ∧ fr ≤ 25 ∧ 0 ≤ toP ∧ toP ≤ 27 ∧ slot b fr ≠ [])
    (hns : ¬(((slot b fr).getLastD White = White ∧ toP = 25)
        ∨ ((slot b fr).getLastD White = Black ∧ toP = 0)))
    (hh : (toP ≠ 0 ∧ toP ≠ 25 ∧ toP ≠ 26 ∧ toP ≠ 27)
        ∧ slot b toP ≠ []
        ∧ (slot b toP).headD White ≠ (slot b fr).getLastD White
        ∧ (slot b toP).length = 1) :
    movePiece b fr toP = (true,
      setSlot
        (setSlot
          (setSlot (setSlot b toP (slot b toP).dropLast)
            (if (slot b toP).headD White = White then 25 else 0)
            (slot (setSlot b toP (slot b toP).dropLast)
                (if (slot b toP).headD White = White then 25 else 0)
              ++ [(slot b toP).headD White]))
          fr
          (slot
            (setSlot (setSlot b toP (slot b toP).dropLast)
              (if (slot b toP).headD White = White then 25 else 0)
              (slot (setSlot b toP (slot b toP).dropLast)
                  (if (slot b toP).headD White = White then 25 else 0)
                ++ [(slot b toP).headD White]))
            fr).dropLast)
        toP
        (slot
          (setSlot
            (setSlot (setSlot b toP (slot b toP).dropLast)
              (if (slot b toP).headD White = White then 25 else 0)
              (slot (setSlot b toP (slot b toP).dropLast)
                  (if (slot b toP).headD White = White then 25 else 0)
                ++ [(slot b toP).headD White]))
            fr
            (slot
              (setSlot (setSlot b toP (slot b toP).dropLast)
                (if (slot b toP).headD White = White then 25 else 0)
                (slot (setSlot b toP (slot b toP).dropLast)
                    (if (slot b toP).headD White = White then 25 else 0)
                  ++ [(slot b toP).headD White]))
              fr).dropLast)
          toP ++ [(slot b fr).getLastD White])) := by
  simp only [movePiece]
  rw [if_pos hg, if_neg hns, if_pos hh]
  by_cases hw : (slot b toP).headD White = White
  · rw [if_pos hw]
    simp only [if_pos hw]
  · rw [if_neg hw]
    simp only [if_neg hw]

theorem movePiece_length (b : Board) (fr toP : ℤ) :
    ((movePiece b fr toP).2).length = b.length := by
  simp only [movePiece]
  split_ifs <;> simp [length_setSlot]

/-- Appending one piece to a slot raises that piece's color total by one. -/
theorem countAllPieces_append (b : Board) (i : ℤ) (x : Color) (c : Color)
    (h0 : 0 ≤ i) (h27 : i ≤ 27) (hlt : i.toNat < b.length) :
    countAllPieces (setSlot b i (slot b i ++ [x])) c
      = countAllPieces b c + (if x = c then 1 else 0) := by
  have e := countAllPieces_setSlot b i (slot b i ++ [x]) c h0 h27 hlt
  rw [List.countP_append] at e
  simp only [List.countP_cons, List.countP_nil, decide_eq_true_eq] at e
  omega

/-- Popping the top piece of a non-empty slot lowers its color total by one. -/
theorem countAllPieces_dropLast (b : Board) (i : ℤ) (c : Color)
    (h0 : 0 ≤ i) (h27 : i ≤ 27) (hlt : i.toNat < b.length)
    (hne : slot b i ≠ []) :
    countAllPieces (setSlot b i (slot b i).dropLast) c
        + (if (slot b i).getLastD White = c then 1 else 0)
      = countAllPieces b c := by
  have e := countAllPieces_setSlot b i (slot b i).dropLast c h0 h27 hlt
  have d := countP_eq_dropLast_add (fun p => p = c) White hne
  simp only [decide_eq_true_eq] at d
  omega

/-- Per-color totals are preserved by any `move_piece` call that is not a
`badBarHit` (failed calls leave the board unchanged). -/
theorem countAllPieces_movePiece (b : Board) (fr toP : ℤ) (c : Color)
    (hlen : b.length = 28) (hgood : ¬ badBarHit b fr toP) :
    countAllPieces ((movePiece b fr toP).2) c = countAllPieces b c := by
  by_cases hg : 0 ≤ fr ∧ fr ≤ 25 ∧ 0 ≤ toP ∧ toP ≤ 27 ∧ slot b fr ≠ []
  case neg =>
    rw [movePiece_fail b fr toP hg]
  case pos =>
  have hfrlt : fr.toNat < b.length := (slot_nonempty_lt_length hg.2.2.2.2).2
  have hfr27 : fr ≤ 27 := by omega
  by_cases hs : ((slot b fr).getLastD White = White ∧ toP = 25)
      ∨ ((slot b fr).getLastD White = Black ∧ toP = 0)
  · -- bear-off redirection branch
    rw [movePiece_bearoff b fr toP hg hs]
    dsimp only
    have e1 := countAllPieces_dropLast b fr c hg.1 hfr27 hfrlt hg.2.2.2.2
    have e2 := countAllPieces_append (setSlot b fr (slot b fr).dropLast)
      (if (slot b fr).getLastD White = White then (27 : ℤ) else 26)
      ((slot b fr).getLastD White) c
      (by split <;> omega) (by split <;> omega)
      (by rw [length_setSlot]; split <;> omega)
    omega
  · by_cases hh : (toP ≠ 0 ∧ toP ≠ 25 ∧ toP ≠ 26 ∧ toP ≠ 27)
        ∧ slot b toP ≠ []
        ∧ (slot b toP).headD White ≠ (slot b fr).getLastD White
        ∧ (slot b toP).length = 1
    · -- hit branch; `hgood` rules out the bar-slot self-pop
      have hfrbar : fr ≠ (if (slot b toP).headD White = White
          then (25 : ℤ) else 0) := by
        intro hbad
        exact hgood ⟨hh.1, hh.2.1, hh.2.2.1, hh.2.2.2, hbad⟩
      have hblot : slot b toP = [(slot b toP).headD White] := by
        rcases List.length_eq_one.mp hh.2.2.2 with ⟨a, ha⟩
        rw [ha]
        simp
      have htoPlt : toP.toNat < b.length := (slot_nonempty_lt_length hh.2.1).2
      have hfrne : fr ≠ toP := by
        intro hbad
        apply hh.2.2.1
        subst hbad
        conv_lhs => rw [hblot]
        conv_rhs => rw [hblot]
        simp
      rw [movePiece_hit b fr toP hg hs hh]
      dsimp only
      -- the four slot updates, innermost first
      have e1 := countAllPieces_dropLast b toP c
        hg.2.2.1 hg.2.2.2.1 htoPlt hh.2.1
      have hgl : (slot b toP).getLastD White = (slot b toP).headD White := by
        conv_lhs => rw [hblot]
        simp
      rw [hgl] at e1
      have hlen1 : (setSlot b toP (slot b toP).dropLast).length = 28 := by
        rw [length_setSlot, hlen]
      have e2 := countAllPieces_append (setSlot b toP (slot b toP).dropLast)
        (if (slot b toP).headD White = White then (25 : ℤ) else 0)
        ((slot b toP).headD White) c
        (by split <;> omega) (by split <;> omega)
        (by rw [hlen1]; split <;> omega)
      set bBar := setSlot (setSlot b toP (slot b toP).dropLast)
        (if (slot b toP).headD White = White then (25 : ℤ) else 0)
        (slot (setSlot b toP (slot b toP).dropLast)
            (if (slot b toP).headD White = White then (25 : ℤ) else 0)
          ++ [(slot b toP).headD White]) with hbBar
      have hlen2 : bBar.length = 28 := by
        rw [hbBar, length_setSlot, hlen1]
      have hslotfr : slot bBar fr = slot b fr := by
        rw [hbBar, slot_setSlot_ne _ _ _ _ (fun h => hfrbar h.symm),
          slot_setSlot_ne _ _ _ _ (fun h => hfrne h.symm)]
      have e3 := countAllPieces_dropLast bBar fr c hg.1 hfr27 (by omega)
        (by rw [hslotfr]; exact hg.2.2.2.2)
      have hgl2 : (slot bBar fr).getLastD White
          = (slot b fr).getLastD White := by rw [hslotfr]
      rw [hgl2] at e3
      have hlen3 : (setSlot bBar fr (slot bBar fr).dropLast).length = 28 := by
        rw [length_setSlot, hlen2]
      have e4 := countAllPieces_append (setSlot bBar fr (slot bBar fr).dropLast)
        toP ((slot b fr).getLastD White) c hg.2.2.1 hg.2.2.2.1 (by omega)
      omega
    · -- plain move branch
      rw [movePiece_nohit b fr toP hg hs hh]
      dsimp only
      have e1 := countAllPieces_dropLast b fr c hg.1 hfr27 hfrlt hg.2.2.2.2
      have e2 := countAllPieces_append (setSlot b fr (slot b fr).dropLast)
        toP ((slot b fr).getLastD White) c hg.2.2.1 hg.2.2.2.1
        (by rw [length_setSlot]; omega)
      omega

/-- Per-color totals are invariant under a whole sequence of `move_piece`
calls containing no `badBarHit`. -/
theorem countAllPieces_applyMoves (moves : List (ℤ × ℤ)) :
    ∀ (b : Board) (c : Color), b.length = 28 → goodSeq b moves = true →
    countAllPieces (applyMoves b moves) c = countAllPieces b c := by
  induction moves with
  | nil =>
    intro b c _ _
    rfl
  | cons m ms ih =>
    intro b c hlen hgood
    obtain ⟨fr, toP⟩ := m
    simp only [goodSeq, Bool.and_eq_true, decide_eq_true_eq] at hgood
    have h1 := countAllPieces_movePiece b fr toP c hlen hgood.1
    have hlen' : ((movePiece b fr toP).2).length = 28 := by
      rw [movePiece_length, hlen]
    have h2 := ih ((movePiece b fr toP).2) c hlen' hgood.2
    have hstep : applyMoves b ((fr, toP) :: ms)
        = applyMoves ((movePiece b fr toP).2) ms := rfl
    rw [hstep, h2, h1]

example : countAllPieces initialBoard White = 15 := by decide

example : getValidMovesForDie White 3 initialBoard
    = [(1, 4), (12, 15), (17, 20), (19, 22)] := by decide

example : getValidMovesForDie Black 3 initialBoard
    = [(24, 21), (13, 10), (8, 5), (6, 3)] := by decide

example : getAllPossibleMoveSequences White [1] initialBoard
    = [[], [(1, 2)], [(17, 18)], [(19, 20)]] := by decide

example : calculateHitRisk White initialBoard 1 Black = 1 / 3 := by
  norm_num [calculateHitRisk, rangeZ, rangeFrom, countPiecesAt, slot, initialBoard,
    List.countP, List.countP.go]

example : calculateHitRisk White initialBoard 12 Black = 1 := by
  norm_num [calculateHitRisk, rangeZ, rangeFrom, countPiecesAt, slot, initialBoard,
    List.countP, List.countP.go]

example : countAllPieces initialBoard Black = 15 := by decide

example : hasPiecesOnBar initialBoard White = false := by decide

example : canBearOff initialBoard White = false := by decide

example : (movePiece initialBoard 1 2).1 = true := by decide

example : slot (movePiece initialBoard 1 2).2 2 = [White] := by decide

example : (movePiece initialBoard 3 5).1 = false := by decide

/-- Claim C1: the result list of `get_all_possible_move_sequences` is claimed
to contain no empty sequence.  The `sequences = [[]]` seed is never removed:
at the input (White, dice `[1]`, initial board) the result is non-empty and
its first member is the empty sequence. -/
theorem allMoveSequences_empty_seed :
    getAllPossibleMoveSequences White [1] initialBoard
      = [[], [(1, 2)], [(17, 18)], [(19, 20)]]
    ∧ [] ∈ getAllPossibleMoveSequences White [1] initialBoard
    ∧ getAllPossibleMoveSequences White [1] initialBoard ≠ [] := by
  refine ⟨by decide, ?_, by decide⟩
  rw [show getAllPossibleMoveSequences White [1] initialBoard
    = [[], [(1, 2)], [(17, 18)], [(19, 20)]] from by decide]
  simp

/-- Claim C2: with a die strictly larger than the exact distance,
`can_bear_off_with_die` is claimed to agree with the rearmost-piece rule of
the spec (`bearOffLargerDieSpec`).  The code scans the points on the wrong
side of `from`: with White on 19 and 20 and die 6 from 20 the code answers
`true` though 19 (further from the edge) is occupied, and with White on 20
and 24 it answers `false` though 20 is the rearmost piece. -/
theorem canBearOffWithDie_overroll_divergence :
    ((6 : ℤ) > 25 - 20)
    ∧ canBearOff bearOffLowBoard White = true
    ∧ 0 < countPiecesAt bearOffLowBoard 19 White
    ∧ canBearOffWithDie 20 6 White bearOffLowBoard = true
    ∧ bearOffLargerDieSpec 20 White bearOffLowBoard = false
    ∧ canBearOff bearOffHighBoard White = true
    ∧ countPiecesAt bearOffHighBoard 19 White = 0
    ∧ 0 < countPiecesAt bearOffHighBoard 24 White
    ∧ canBearOffWithDie 20 6 White bearOffHighBoard = false
    ∧ bearOffLargerDieSpec 20 White bearOffHighBoard = true := by decide

/-- Claim C8 counterexample: on a board where White can bear off and a White
piece occupies point 24 (a point above 19), `can_bear_off_with_die(19, 6)` is
claimed to return `false`; it returns `true` (6 is the exact distance from
19 and the exact-value branch precedes any further check). -/
theorem canBearOffWithDie_exact_counterexample :
    canBearOff bearOffBoard White = true
    ∧ 0 < countPiecesAt bearOffBoard 24 White
    ∧ canBearOffWithDie 19 6 White bearOffBoard = true := by decide

/-- Claim C8 (amended): for every board on which White can bear off,
`can_bear_off_with_die(19, 6, "White", board)` returns `true` — die 6 is the
exact distance from point 19, and the exact die always bears off, whatever
occupies the points above 19. -/
theorem canBearOffWithDie_exact_19_6 (b : Board)
    (h : canBearOff b White = true) :
    canBearOffWithDie 19 6 White b = true := by
  simp [canBearOffWithDie, h]

/-- Witness for `canBearOffWithDie_exact_19_6` at `bearOffBoard`. -/
theorem canBearOffWithDie_exact_19_6_witness :
    canBearOff bearOffBoard White = true
    ∧ canBearOffWithDie 19 6 White bearOffBoard = true :=
  ⟨by decide, canBearOffWithDie_exact_19_6 bearOffBoard (by decide)⟩

/-- Claim C7: `_calculate_hit_risk` is claimed to implement the spec formula
(`hitRiskSpec`).  For a White AI the code scans only distances 1-5, so a
Black piece exactly six points behind a White blot contributes nothing, and
the bar bonus fires for blots on points 1-6 although a Black bar piece
enters on points 19-24; the two disagree at these inputs. -/
theorem calculateHitRisk_divergence :
    calculateHitRisk White hitRiskBoard 13 Black = 0
    ∧ hitRiskSpec White hitRiskBoard 13 Black = 1 / 6
    ∧ calculateHitRisk White hitRiskBarBoard 3 Black = 1
    ∧ hitRiskSpec White hitRiskBarBoard 3 Black = 0 := by
  refine ⟨?_, ?_, ?_, ?_⟩ <;>
    norm_num [calculateHitRisk, hitRiskSpec, rangeZ, rangeFrom, countPiecesAt,
      slot, hitRiskBoard, hitRiskBarBoard, List.countP, List.countP.go,
      min_def]

theorem movePiece_fst (b : Board) (fr toP : ℤ)
    (hg : 0 ≤ fr ∧ fr ≤ 25 ∧ 0 ≤ toP ∧ toP ≤ 27 ∧ slot b fr ≠ []) :
    (movePiece b fr toP).1 = true := by
  simp only [movePiece]
  rw [if_pos hg]
  split <;> rfl

/-- Claim C10: `move_piece(from, to)` returns `false` and leaves the board
unchanged exactly when `from` is outside `[0, 25]`, `to` is outside
`[0, 27]`, or slot `from` is empty; in every other case it returns `true`
with no game-legality check — in particular landing on a playing point that
holds two or more opposing pieces succeeds and leaves both colors there. -/
theorem movePiece_error_spec (b : Board) (fr toP : ℤ) :
    (((movePiece b fr toP).1 = false ∧ (movePiece b fr toP).2 = b)
      ↔ ¬(0 ≤ fr ∧ fr ≤ 25 ∧ 0 ≤ toP ∧ toP ≤ 27 ∧ slot b fr ≠ []))
    ∧ ((0 ≤ fr ∧ fr ≤ 25 ∧ 0 ≤ toP ∧ toP ≤ 27 ∧ slot b fr ≠ [])
        → (movePiece b fr toP).1 = true)
    ∧ ((0 ≤ fr ∧ fr ≤ 25 ∧ 0 ≤ toP ∧ toP ≤ 27 ∧ slot b fr ≠ [])
        → 1 ≤ toP → toP ≤ 24
        → 2 ≤ (slot b toP).countP
            (fun p => p = otherColor ((slot b fr).getLastD White))
        → (movePiece b fr toP).1 = true
          ∧ (slot b fr).getLastD White ∈ slot ((movePiece b fr toP).2) toP
          ∧ 2 ≤ (slot ((movePiece b fr toP).2) toP).countP
              (fun p => p = otherColor ((slot b fr).getLastD White))) := by
  refine ⟨⟨?_, ?_⟩, fun hg => movePiece_fst b fr toP hg, ?_⟩
  · rintro ⟨hfalse, -⟩ hg
    rw [movePiece_fst b fr toP hg] at hfalse
    cases hfalse
  · intro hng
    rw [movePiece_fail b fr toP hng]
    exact ⟨rfl, rfl⟩
  · intro hg h1 h24 hcount
    have hlen2 : 2 ≤ (slot b toP).length :=
      le_trans hcount (List.countP_le_length _)
    have hne2 : slot b toP ≠ [] := by
      intro h
      rw [h] at hlen2
      simp at hlen2
    have htoPlt : toP.toNat < b.length := (slot_nonempty_lt_length hne2).2
    have hns : ¬(((slot b fr).getLastD White = White ∧ toP = 25)
        ∨ ((slot b fr).getLastD White = Black ∧ toP = 0)) := by
      rintro (⟨-, h⟩ | ⟨-, h⟩) <;> omega
    have hnh : ¬((toP ≠ 0 ∧ toP ≠ 25 ∧ toP ≠ 26 ∧ toP ≠ 27)
        ∧ slot b toP ≠ []
        ∧ (slot b toP).headD White ≠ (slot b fr).getLastD White
        ∧ (slot b toP).length = 1) := by
      rintro ⟨-, -, -, hone⟩
      omega
    rw [movePiece_nohit b fr toP hg hns hnh]
    dsimp only
    have hlen1 : (setSlot b fr (slot b fr).dropLast).length = b.length :=
      length_setSlot _ _ _
    have hslotPost : slot (setSlot (setSlot b fr (slot b fr).dropLast) toP
          (slot (setSlot b fr (slot b fr).dropLast) toP
            ++ [(slot b fr).getLastD White])) toP
        = slot (setSlot b fr (slot b fr).dropLast) toP
          ++ [(slot b fr).getLastD White] :=
      slot_setSlot_self _ toP _ (by omega) (by omega)
    refine ⟨rfl, ?_, ?_⟩
    · rw [hslotPost]
      simp
    · rw [hslotPost, List.countP_append]
      have hmid : 2 ≤ (slot (setSlot b fr (slot b fr).dropLast) toP).countP
          (fun p => p = otherColor ((slot b fr).getLastD White)) := by
        by_cases hfrto : fr = toP
        · subst hfrto
          rw [slot_setSlot_self b fr _ (by omega)
            (slot_nonempty_lt_length hg.2.2.2.2).2]
          have hd := countP_eq_dropLast_add
            (fun p => p = otherColor ((slot b fr).getLastD White)) White
            hg.2.2.2.2
          have hno : ((slot b fr).getLastD White
              = otherColor ((slot b fr).getLastD White)) = False :=
            eq_false (fun h => (otherColor_ne _) h.symm)
          simp only [decide_eq_true_eq, hno, if_false] at hd
          omega
        · rw [slot_setSlot_ne b fr toP _ hfrto]
          exact hcount
      omega

/-- Witness for `movePiece_error_spec`: moving a White piece from point 1
onto point 13 (five Black pieces) on the initial board succeeds and stacks
both colors. -/
theorem movePiece_error_spec_witness :
    (movePiece initialBoard 1 13).1 = true
    ∧ (slot initialBoard 1).getLastD White
        ∈ slot ((movePiece initialBoard 1 13).2) 13
    ∧ 2 ≤ (slot ((movePiece initialBoard 1 13).2) 13).countP
        (fun p => p = otherColor ((slot initialBoard 1).getLastD White)) :=
  (movePiece_error_spec initialBoard 1 13).2.2 (by decide) (by decide)
    (by decide) (by decide)

/-- Claim C3 counterexample: on `blotBoard` the destination 2 is a playing
point holding exactly one piece of the color opposite to the mover (a White
blot, mover Black from slot 25), the call succeeds, yet the displaced White
piece is not appended to bar slot 25 — it is popped right back off by the
mover's departure from 25, and the White piece count drops from 1 to 0. -/
theorem movePiece_hit_bar_counterexample :
    (1 : ℤ) ≤ 2 ∧ (2 : ℤ) ≤ 24
    ∧ slot blotBoard 2 = [otherColor ((slot blotBoard 25).getLastD White)]
    ∧ (movePiece blotBoard 25 2).1 = true
    ∧ slot ((movePiece blotBoard 25 2).2) 25 ≠ slot blotBoard 25 ++ [White]
    ∧ countAllPieces blotBoard White = 1
    ∧ countAllPieces ((movePiece blotBoard 25 2).2) White = 0 := by decide

/-- Claim C3 (amended): when the destination is a playing point holding
exactly one opposing piece and `from_point` is not itself the bar slot the
displaced piece is sent to, a successful `move_piece` removes that piece,
appends it to the bar slot keyed by the displaced piece's own color
(White → 25, Black → 0), and leaves the destination holding exactly the
mover's piece. -/
theorem movePiece_hit_relocation (b : Board) (fr toP : ℤ)
    (hlen : b.length = 28) (h0 : 0 ≤ fr) (h25 : fr ≤ 25)
    (hne : slot b fr ≠ []) (hto1 : 1 ≤ toP) (hto24 : toP ≤ 24)
    (hblot : slot b toP = [otherColor ((slot b fr).getLastD White)])
    (hfrbar : fr ≠ (if otherColor ((slot b fr).getLastD White) = White
        then (25 : ℤ) else 0)) :
    (movePiece b fr toP).1 = true
    ∧ slot ((movePiece b fr toP).2) toP = [(slot b fr).getLastD White]
    ∧ slot ((movePiece b fr toP).2)
        (if otherColor ((slot b fr).getLastD White) = White
          then (25 : ℤ) else 0)
      = slot b (if otherColor ((slot b fr).getLastD White) = White
          then (25 : ℤ) else 0)
        ++ [otherColor ((slot b fr).getLastD White)] := by
  have hoppne : otherColor ((slot b fr).getLastD White)
      ≠ (slot b fr).getLastD White := otherColor_ne _
  have hg : 0 ≤ fr ∧ fr ≤ 25 ∧ 0 ≤ toP ∧ toP ≤ 27 ∧ slot b fr ≠ [] :=
    ⟨h0, h25, by omega, by omega, hne⟩
  have htoblot : slot b toP ≠ [] := by
    rw [hblot]
    simp
  have hheadD : (slot b toP).headD White
      = otherColor ((slot b fr).getLastD White) := by
    rw [hblot]
    simp
  have hdropto : (slot b toP).dropLast = [] := by
    rw [hblot]
    simp
  have htoPlt : toP.toNat < b.length := (slot_nonempty_lt_length htoblot).2
  have hfrlt : fr.toNat < b.length := (slot_nonempty_lt_length hne).2
  have hs : ¬(((slot b fr).getLastD White = White ∧ toP = 25)
      ∨ ((slot b fr).getLastD White = Black ∧ toP = 0)) := by
    rintro (⟨-, h⟩ | ⟨-, h⟩) <;> omega
  have hfrne : fr ≠ toP := by
    intro hbad
    have h1 : (slot b toP).getLastD White = (slot b fr).getLastD White := by
      rw [hbad]
    rw [hblot] at h1
    have h2 : [otherColor ((slot b fr).getLastD White)].getLastD White
        = otherColor ((slot b fr).getLastD White) := rfl
    rw [h2] at h1
    exact hoppne h1
  have hh : (toP ≠ 0 ∧ toP ≠ 25 ∧ toP ≠ 26 ∧ toP ≠ 27) ∧ slot b toP ≠ []
      ∧ (slot b toP).headD White ≠ (slot b fr).getLastD White
      ∧ (slot b toP).length = 1 := by
    refine ⟨⟨by omega, by omega, by omega, by omega⟩, htoblot, ?_, ?_⟩
    · rw [hheadD]
      exact hoppne
    · rw [hblot]
      rfl
  have hbarne : (if otherColor ((slot b fr).getLastD White) = White
      then (25 : ℤ) else 0) ≠ toP := by
    split <;> omega
  have hbar0 : (0 : ℤ) ≤ if otherColor ((slot b fr).getLastD White) = White
      then (25 : ℤ) else 0 := by
    split <;> omega
  rw [movePiece_hit b fr toP hg hs hh]
  dsimp only
  rw [hheadD]
  refine ⟨rfl, ?_, ?_⟩
  · rw [slot_setSlot_self _ toP _ (by omega)
      (by simp only [length_setSlot] ; omega),
      slot_setSlot_ne _ fr toP _ hfrne,
      slot_setSlot_ne _ _ toP _ hbarne,
      slot_setSlot_self b toP _ (by omega) htoPlt, hdropto]
    rfl
  · rw [slot_setSlot_ne _ toP _ _ hbarne.symm,
      slot_setSlot_ne _ fr _ _ hfrbar,
      slot_setSlot_self _ _ _ hbar0
        (by simp only [length_setSlot] ; split <;> omega),
      slot_setSlot_ne _ toP _ _ hbarne.symm]

/-- Witness for `movePiece_hit_relocation`: after White plays 1→2, Black
hits the White blot on 2 from point 6; the blot goes to bar slot 25. -/
theorem movePiece_hit_relocation_witness :
    (movePiece (movePiece initialBoard 1 2).2 6 2).1 = true
    ∧ slot ((movePiece (movePiece initialBoard 1 2).2 6 2).2) 2
        = [(slot (movePiece initialBoard 1 2).2 6).getLastD White]
    ∧ slot ((movePiece (movePiece initialBoard 1 2).2 6 2).2)
        (if otherColor ((slot (movePiece initialBoard 1 2).2 6).getLastD White)
            = White then (25 : ℤ) else 0)
      = slot (movePiece initialBoard 1 2).2
          (if otherColor ((slot (movePiece initialBoard 1 2).2 6).getLastD White)
              = White then (25 : ℤ) else 0)
        ++ [otherColor ((slot (movePiece initialBoard 1 2).2 6).getLastD White)] :=
  movePiece_hit_relocation (movePiece initialBoard 1 2).2 6 2 (by decide)
    (by decide) (by decide) (by decide) (by decide) (by decide) (by decide)
    (by decide)

/-- Claim C4: while a player has a piece on the bar,
`get_valid_moves_for_die` returns exactly the single bar-entry candidate
(White: `(25, die)`, Black: `(0, 25 - die)`) filtered by `is_valid_entry`,
and never any move from another point; in particular at most one move. -/
theorem getValidMovesForDie_bar_priority (b : Board) (c : Color) (die : ℤ)
    (hbar : hasPiecesOnBar b c = true) :
    getValidMovesForDie c die b
      = (if isValidEntry (if c = White then die else 25 - die) c b
          then [((if c = White then (25 : ℤ) else 0),
                  if c = White then die else 25 - die)]
          else [])
    ∧ (getValidMovesForDie c die b).length ≤ 1 := by
  have he : getValidMovesForDie c die b
      = (if isValidEntry (if c = White then die else 25 - die) c b
          then [((if c = White then (25 : ℤ) else 0),
                  if c = White then die else 25 - die)]
          else []) := by
    simp only [getValidMovesForDie, hbar, if_true]
  refine ⟨he, ?_⟩
  rw [he]
  split_ifs <;> simp

/-- Witness for `getValidMovesForDie_bar_priority` on `whiteBarBoard` with
die 3. -/
theorem getValidMovesForDie_bar_priority_witness :
    hasPiecesOnBar whiteBarBoard White = true
    ∧ (getValidMovesForDie White 3 whiteBarBoard
        = (if isValidEntry (if White = White then 3 else 25 - 3) White
              whiteBarBoard
            then [((if White = White then (25 : ℤ) else 0),
                    if White = White then 3 else 25 - 3)]
            else [])
      ∧ (getValidMovesForDie White 3 whiteBarBoard).length ≤ 1) :=
  ⟨by decide, getValidMovesForDie_bar_priority whiteBarBoard White 3 (by decide)⟩

/-- Claim C5 counterexample: from the initial position the three successful
raw calls `move_piece(24, 25)`, `move_piece(1, 2)`, `move_piece(25, 2)`
leave White with 14 pieces and Black with 16 — the third call hits the White
blot on 2 while moving the Black piece stored on slot 25, so the displaced
White piece is appended to slot 25 and immediately popped off again. -/
theorem conservation_counterexample :
    (movePiece initialBoard 24 25).1 = true
    ∧ (movePiece (movePiece initialBoard 24 25).2 1 2).1 = true
    ∧ (movePiece (movePiece (movePiece initialBoard 24 25).2 1 2).2 25 2).1
        = true
    ∧ countAllPieces (applyMoves initialBoard [(24, 25), (1, 2), (25, 2)])
        White = 14
    ∧ countAllPieces (applyMoves initialBoard [(24, 25), (1, 2), (25, 2)])
        Black = 16 := by decide

/-- Claim C5 (amended): for every board reachable from the initial position
by a sequence of `move_piece` calls none of which hits a blot while moving
from the bar slot matching the displaced piece's color (`goodSeq`), the
White and Black totals over all 28 slots both remain 15. -/
theorem conservation_amended (moves : List (ℤ × ℤ))
    (hgood : goodSeq initialBoard moves = true) :
    countAllPieces (applyMoves initialBoard moves) White = 15
    ∧ countAllPieces (applyMoves initialBoard moves) Black = 15 := by
  constructor
  · rw [countAllPieces_applyMoves moves initialBoard White (by decide) hgood]
    decide
  · rw [countAllPieces_applyMoves moves initialBoard Black (by decide) hgood]
    decide

/-- Witness for `conservation_amended`: an opening 3-5 for White plus a
Black reply, including a bear-off-shaped call, preserves both totals. -/
theorem conservation_amended_witness :
    goodSeq initialBoard [(1, 4), (12, 17), (24, 21), (13, 8)] = true
    ∧ (countAllPieces
          (applyMoves initialBoard [(1, 4), (12, 17), (24, 21), (13, 8)])
          White = 15
      ∧ countAllPieces
          (applyMoves initialBoard [(1, 4), (12, 17), (24, 21), (13, 8)])
          Black = 15) :=
  ⟨by decide, conservation_amended [(1, 4), (12, 17), (24, 21), (13, 8)]
    (by decide)⟩

/-- Claim C6: a successful `move_piece` whose top piece at `from` is White
and whose destination is 25 (Black: 0) pops one piece off `from`, appends one
piece of that color to tray slot 27 (Black: 26), and leaves every other slot
— in particular the bar slot 25 (Black: 0), when distinct from `from` —
unchanged. -/
theorem movePiece_bearoff_frame (b : Board) (fr : ℤ) (c : Color)
    (hlen : b.length = 28) (h0 : 0 ≤ fr) (h25 : fr ≤ 25)
    (hne : slot b fr ≠ []) (htop : (slot b fr).getLastD White = c) :
    (movePiece b fr (if c = White then 25 else 0)).1 = true
    ∧ slot ((movePiece b fr (if c = White then 25 else 0)).2) fr
        = (slot b fr).dropLast
    ∧ slot ((movePiece b fr (if c = White then 25 else 0)).2)
        (if c = White then 27 else 26)
      = slot b (if c = White then 27 else 26) ++ [c]
    ∧ (∀ i : ℤ, i ≠ fr → i ≠ (if c = White then 27 else 26)
        → slot ((movePiece b fr (if c = White then 25 else 0)).2) i
          = slot b i)
    ∧ (fr ≠ (if c = White then 25 else 0)
        → slot ((movePiece b fr (if c = White then 25 else 0)).2)
            (if c = White then 25 else 0)
          = slot b (if c = White then 25 else 0)) := by
  have hfrlt : fr.toNat < b.length := (slot_nonempty_lt_length hne).2
  have hg : 0 ≤ fr ∧ fr ≤ 25 ∧ 0 ≤ (if c = White then (25 : ℤ) else 0)
      ∧ (if c = White then (25 : ℤ) else 0) ≤ 27 ∧ slot b fr ≠ [] :=
    ⟨h0, h25, by split <;> omega, by split <;> omega, hne⟩
  have hs : ((slot b fr).getLastD White = White
        ∧ (if c = White then (25 : ℤ) else 0) = 25)
      ∨ ((slot b fr).getLastD White = Black
        ∧ (if c = White then (25 : ℤ) else 0) = 0) := by
    cases c with
    | White => exact Or.inl ⟨htop, by simp⟩
    | Black => exact Or.inr ⟨htop, by simp⟩
  have hfrtray : fr ≠ (if c = White then (27 : ℤ) else 26) := by
    split <;> omega
  rw [movePiece_bearoff b fr _ hg hs]
  dsimp only
  rw [htop]
  have hframe : ∀ i : ℤ, i ≠ fr → i ≠ (if c = White then (27 : ℤ) else 26)
      → slot (setSlot (setSlot b fr (slot b fr).dropLast)
          (if c = White then (27 : ℤ) else 26)
          (slot (setSlot b fr (slot b fr).dropLast)
            (if c = White then (27 : ℤ) else 26) ++ [c])) i
        = slot b i := by
    intro i hfr htray
    rw [slot_setSlot_ne _ _ i _ (fun hx => htray hx.symm),
      slot_setSlot_ne _ fr i _ (fun hx => hfr hx.symm)]
  refine ⟨rfl, ?_, ?_, hframe, ?_⟩
  · rw [slot_setSlot_ne _ _ fr _ hfrtray.symm,
      slot_setSlot_self b fr _ h0 hfrlt]
  · rw [slot_setSlot_self _ _ _ (by split <;> omega)
      (by simp only [length_setSlot] ; split <;> omega),
      slot_setSlot_ne _ fr _ _ hfrtray]
  · intro hfb
    refine hframe _ (fun hx => hfb hx.symm) ?_
    cases c <;> simp

/-- Witness for `movePiece_bearoff_frame`: bearing a White piece off from 19
on the initial board increments the tray 27 and leaves bar slot 25 alone. -/
theorem movePiece_bearoff_frame_witness :
    (movePiece initialBoard 19 (if White = White then 25 else 0)).1 = true
    ∧ slot ((movePiece initialBoard 19 (if White = White then 25 else 0)).2)
        (if White = White then 27 else 26)
      = slot initialBoard (if White = White then 27 else 26) ++ [White]
    ∧ slot ((movePiece initialBoard 19 (if White = White then 25 else 0)).2)
        (if White = White then 25 else 0)
      = slot initialBoard (if White = White then 25 else 0) := by
  have h := movePiece_bearoff_frame initialBoard 19 White (by decide)
    (by decide) (by decide) (by decide) (by decide)
  exact ⟨h.1, h.2.2.1, h.2.2.2.2 (by decide)⟩

/-- Claim C9: when the `randomness` weight is 0, `_evaluate_position` is
deterministic — the `random.uniform(0, 0)` sample is forced to 0, so any two
calls on boards with identical points arrays, the same AI color and the same
weights return the same score and the same component mapping. -/
theorem evaluatePosition_deterministic (b : Board) (c : Color) (w : Weights)
    (r₁ r₂ : ℚ) (hw : w.randomness = 0)
    (h1 : 0 ≤ r₁) (h2 : r₁ ≤ w.randomness)
    (h3 : 0 ≤ r₂) (h4 : r₂ ≤ w.randomness) :
    evaluatePosition c w b r₁ = evaluatePosition c w b r₂ := by
  have e1 : r₁ = 0 := le_antisymm (hw ▸ h2) h1
  have e2 : r₂ = 0 := le_antisymm (hw ▸ h4) h3
  rw [e1, e2]

/-- Witness for `evaluatePosition_deterministic` with zero-randomness
weights on the initial board. -/
theorem evaluatePosition_deterministic_witness :
    evaluatePosition White zeroRandomWeights initialBoard 0
      = evaluatePosition White zeroRandomWeights initialBoard 0 :=
  evaluatePosition_deterministic initialBoard White zeroRandomWeights 0 0
    rfl (le_refl 0) (le_of_eq rfl.symm) (le_refl 0) (le_of_eq rfl.symm)
